import Mathlib

/-!
Verification of the ReActLM agent core (`src/reactlm/core/agent.py`,
`src/reactlm/core/base.py`, `src/reactlm/core/types.py`) as a shallow
embedding.  The reasoning loop of `Agent.execute` is translated into a
fueled recursion (the fuel is `max_iterations.toNat`, which is exactly the
number of passes the Python `while self._iteration < max_iterations` loop
can make starting from `_iteration = 0`).  External collaborators (LLM,
tools, memory store) are modelled as oracles: the LLM as a function of the
model-call sequence number, tools and the memory store as functions of
their arguments, each returning `Except PyErr _` where `.error` models a
raised Python exception.
-/

/-- Mirrors `InputType` in `core/types.py`. -/
inductive InputType where
  | text | image | audio | video | binary
deriving DecidableEq, Repr

/-- Mirrors `OutputType` in `core/types.py`. -/
inductive OutputType where
  | text | image | audio | video | binary | json
deriving DecidableEq, Repr

/-- Mirrors `ExecutionMode` in `core/types.py`. -/
inductive ExecutionMode where
  | standard | yolo
deriving DecidableEq, Repr

/-- Mirrors `AgentState` in `core/types.py`. -/
inductive AgentState where
  | idle | thinking | executing | waiting | error | completed
deriving DecidableEq, Repr

/-- Dynamic payload values (the `Any`-typed `content` fields in `base.py`).
JSON-like: strings, integers, booleans, null, arrays and string-keyed
objects, enough for everything the loop inspects. -/
inductive Value where
  | null : Value
  | str : String → Value
  | num : Int → Value
  | bool : Bool → Value
  | arr : List Value → Value
  | obj : List (String × Value) → Value

/-- Python's `key in response_data` / `response_data[key]` on a string-keyed
map, as the single partial-lookup both sites of `agent.py` use.  The loop
only inspects `content` when the envelope kind is `Json`, whose payload the
data model requires to deserialize to a string-keyed map; on any other
payload shape the lookup reports the key absent. -/
def Value.getKey : Value → String → Option Value
  | .obj kvs, k => kvs.lookup k
  | _, _ => none

/-- Mirrors `BaseInput` in `core/base.py`. -/
structure BaseInput where
  type : InputType
  content : Value
  metadata : List (String × Value) := []

/-- Mirrors `BaseOutput` in `core/base.py`. -/
structure BaseOutput where
  type : OutputType
  content : Value
  metadata : List (String × Value) := []

/-- Python exceptions that `agent.py` and its collaborators can raise. -/
inductive PyErr where
  | toolNotFound (name : Value)    -- `ValueError(f"Tool {tool_name} not found")`, agent.py:131
  | duplicateTool (name : String)  -- `ValueError(f"Tool {tool.name} already exists")`, agent.py:157
  | maxIterations                  -- `RuntimeError("Max iterations reached without completion")`, agent.py:145
  | unboundLocal (var : String)    -- Python `UnboundLocalError` on a local read before assignment
  | external (msg : String)        -- any exception raised by an LLM / tool / memory collaborator

/-- Metadata attached to each trace: `{"iteration": ..., "state": ...}`,
agent.py:231-234. -/
structure TraceMeta where
  iteration : Nat
  state : AgentState
deriving DecidableEq, Repr

/-- Mirrors `BaseTrace` in `core/base.py` (the wall-clock `timestamp` field
is omitted: real time is outside the embedding, and no property reads it). -/
structure BaseTrace where
  session_id : String
  action : String
  input : BaseInput
  output : BaseOutput
  metadata : TraceMeta

/-- The LLM collaborator (`BaseLLM.generate`), as a response oracle indexed
by the model-call sequence number within one `execute` call; `.error`
models the provider raising. -/
structure LLM where
  generate : Nat → Except PyErr BaseOutput

/-- The tool collaborator (`BaseTool` in `core/base.py`). -/
structure Tool where
  name : String
  description : String
  execute : BaseInput → Except PyErr BaseOutput
  validate_input : BaseInput → Except PyErr Bool

/-- The memory collaborator (`BaseMemory.store` is the only method the loop
calls, agent.py:239-243); `.error` models the store raising, as
`RedisMemory.store` does on any Redis failure. -/
structure Memory where
  store : String → BaseTrace → Except PyErr Unit

/-- Mirrors `AgentConfig` in `agent.py` (the real-valued `temperature` and
`timeout` knobs are forwarded opaquely to collaborators and never read by
the loop; they are omitted from the embedding). -/
structure AgentConfig where
  max_iterations : Int := 10
  mode : ExecutionMode := .standard
  allowed_tools : List String := ["*"]
  memory_type : String := "default"
  trace_enabled : Bool := true
  max_tokens : Option Int := none
  stop_sequences : List String := []
  metadata : List (String × Value) := []

/-- The `Agent` object: `llm`, `config`, `tools` (a string-keyed dict,
modelled as an association list in insertion order), optional `memory`,
and the mutable fields `state`, `_session_id`, `_iteration`, `_traces`
set in `Agent.__init__` (agent.py:40-54).  Note `_session_id` is generated
once at construction, not per `execute` call. -/
structure Agent where
  llm : LLM
  config : AgentConfig
  tools : List (String × Tool) := []
  memory : Option Memory := none
  state : AgentState := .idle
  session_id : String
  iteration : Nat := 0
  traces : List BaseTrace := []

/-- Observable interactions with tool collaborators during one `execute`
call (used to state which tool methods the loop invokes, and with what). -/
inductive Event where
  | toolExec (name : String) (input : BaseInput)
  | toolValidate (name : String) (input : BaseInput)

/-- The mutable state threaded through the `while` loop of `execute`:
`_iteration`, `self.state`, the `context` dict, `_traces`, plus the
model-call counter of the oracle and the tool-interaction log. -/
structure LoopState where
  iteration : Nat
  agState : AgentState
  ctx : List (String × Value)
  traces : List BaseTrace
  modelCalls : Nat
  events : List Event

/-- Python dict assignment `context[k] = v` (agent.py:129). -/
def ctxSet (ctx : List (String × Value)) (k : String) (v : Value) : List (String × Value) :=
  if (ctx.lookup k).isSome then ctx.map (fun p => if p.1 = k then (k, v) else p)
  else ctx ++ [(k, v)]

/-- The trace record built in `Agent._store_trace` (agent.py:225-235). -/
def mkTrace (A : Agent) (s : LoopState) (label : String) (inp : BaseInput)
    (outp : BaseOutput) : BaseTrace :=
  { session_id := A.session_id, action := label, input := inp, output := outp,
    metadata := { iteration := s.iteration, state := s.agState } }

/-- `Agent._store_trace` (agent.py:218-243): append the trace to `_traces`,
then, if a memory backend is present, mirror it under the key
`"trace:{session_id}:{iteration}"`.  There is no exception handler around
the mirror call: a raised store error is returned as `some e` and
propagates.  The local append happens before the mirror attempt, so the
trace is retained even when the mirror raises. -/
def traceStep (A : Agent) (s : LoopState) (label : String) (inp : BaseInput)
    (outp : BaseOutput) : LoopState × Option PyErr :=
  let tr := mkTrace A s label inp outp
  let s2 := { s with traces := s.traces ++ [tr] }
  match A.memory with
  | none => (s2, none)
  | some m =>
    match m.store ("trace:" ++ A.session_id ++ ":" ++ toString s2.iteration) tr with
    | .ok _ => (s2, none)
    | .error e => (s2, some e)

/-- Outcome of one pass of the `while` body (agent.py:77-131): continue to
the next pass carrying the `action` local, break out after setting
`final_answer` (agent.py:98-103), or raise. -/
inductive PassOut where
  | cont (s : LoopState) (action : BaseOutput)
  | brk (s : LoopState) (action : BaseOutput) (fa : BaseOutput)
  | err (s : LoopState) (e : PyErr)

/-- What the `if/elif` chain of agent.py:93-109 reads off an action:
a final answer, a tool request (with the raw `tool` value and the `input`
sub-field defaulted to `""`), or nothing the loop reacts to (non-`Json`
kind, or a payload with neither key). -/
inductive Decision where
  | finalAnswer (v : Value)
  | toolReq (toolV : Value) (input : Value)
  | nothing

/-- The parse of a model action, agent.py:93-109. -/
def parseAction (a : BaseOutput) : Decision :=
  if a.type = .json then
    match a.content.getKey "final_answer" with
    | some v => .finalAnswer v
    | none =>
      match a.content.getKey "tool" with
      | some toolV => .toolReq toolV ((a.content.getKey "input").getD (.str ""))
      | none => .nothing
  else .nothing

/-- Tool dispatch, agent.py:107-131: state `Executing`, exact-name lookup of
the `tool` value in the registry; if found, invoke the tool's `execute` on
a kind-`Text` envelope wrapping the `input` sub-field, record the
`"tool_execution:<name>"` trace when tracing is enabled, and write the
result content into `context["last_tool_result"]`; if not found (or the
requested name is not a string key), raise `ToolNotFound`.  The tool's
`validate_input` is never called. -/
def dispatchTool (A : Agent) (input_data : BaseInput) (s : LoopState)
    (action : BaseOutput) (toolV tool_input : Value) : PassOut :=
  let s := { s with agState := AgentState.executing }
  match toolV with
  | .str tool_name =>
    match A.tools.lookup tool_name with
    | some tool =>
      let tIn : BaseInput := { type := .text, content := tool_input, metadata := [] }
      let s := { s with events := s.events ++ [Event.toolExec tool_name tIn] }
      match tool.execute tIn with
      | .error e => .err s e
      | .ok tool_result =>
        let q := if A.config.trace_enabled then
                   traceStep A s ("tool_execution:" ++ tool_name) input_data tool_result
                 else (s, none)
        match q.2 with
        | some e => .err q.1 e
        | none =>
          .cont { q.1 with ctx := ctxSet q.1.ctx "last_tool_result" tool_result.content }
            action
    | none => .err s (.toolNotFound toolV)
  | _ => .err s (.toolNotFound toolV)

/-- One pass of the `while` body, agent.py:78-131: increment `_iteration`,
set state `Thinking`, call the model (`_generate_next_action`; the index
passed to the oracle is the pre-call count), record an `"llm_generation"`
trace when tracing is enabled, then act on the parsed decision: a final
answer breaks, a tool request dispatches, anything else just continues. -/
def passStep (A : Agent) (input_data : BaseInput) (s0 : LoopState) : PassOut :=
  let s := { s0 with iteration := s0.iteration + 1, agState := AgentState.thinking,
                     modelCalls := s0.modelCalls + 1 }
  match A.llm.generate s0.modelCalls with
  | .error e => .err s e
  | .ok action =>
    let p := if A.config.trace_enabled then traceStep A s "llm_generation" input_data action
             else (s, none)
    match p.2 with
    | some e => .err p.1 e
    | none =>
      match parseAction action with
      | .finalAnswer v =>
        .brk p.1 action { type := .json, content := v, metadata := action.metadata }
      | .toolReq toolV tool_input => dispatchTool A input_data p.1 action toolV tool_input
      | .nothing => .cont p.1 action

/-- How the `while` loop finished: an in-loop `return` (agent.py:136), a
raised exception, or falling out of the loop — by the guard failing or by
`break` — carrying the bindings of the `action` and `final_answer` locals
(`none` for `action` means the local was never assigned). -/
inductive LoopOut where
  | returned (out : BaseOutput)
  | raised (e : PyErr)
  | ended (action : Option BaseOutput) (fa : Option BaseOutput)

/-- The `while self._iteration < max_iterations` loop (agent.py:77-136).
The fuel argument is the number of passes the guard still admits; the
in-loop check `if final_answer is not None: return` (agent.py:134-136) is
kept literally even though `final_answer` is only ever set immediately
before a `break`. -/
def execLoop (A : Agent) (input_data : BaseInput) :
    Nat → LoopState → Option BaseOutput → Option BaseOutput → LoopOut × LoopState
  | 0, s, act, fa => (.ended act fa, s)
  | fuel + 1, s, _act, fa =>
    match passStep A input_data s with
    | .err s2 e => (.raised e, s2)
    | .brk s2 action fa2 => (.ended (some action) (some fa2), s2)
    | .cont s2 action =>
      match fa with
      | some f => (.returned f, { s2 with agState := .completed })
      | none => execLoop A input_data fuel s2 (some action) none

/-- Result of one `execute` call: the returned envelope or raised
exception, the agent with its mutable fields (`state`, `_iteration`,
`_traces`) updated, and the tool-interaction log. -/
structure ExecResult where
  result : Except PyErr BaseOutput
  agent : Agent
  events : List Event
  modelCalls : Nat

/-- `Agent.execute` (agent.py:56-152).  Initialization (lines 70-74): state
`Thinking`, `_iteration := 0`, `context := context or {}`, `final_answer :=
None`.  After the loop (lines 138-148): if `final_answer` is unset, reading
the `action` local raises `UnboundLocalError` when the loop body never ran
(the guard `final_answer is None and action is not None` evaluates `action`);
otherwise the last action becomes the answer and the call completes.  The
`RuntimeError("Max iterations reached without completion")` at line 145 is
unreachable under the collaborator contract (`generate` returns an envelope,
never `None`).  The `except` clause (lines 150-152) sets state `Error` and
re-raises any exception unchanged. -/
def Agent.execute (A : Agent) (input_data : BaseInput)
    (context : Option (List (String × Value))) : ExecResult :=
  let ctx := context.getD []
  let s0 : LoopState :=
    { iteration := 0, agState := .thinking, ctx := ctx, traces := A.traces,
      modelCalls := 0, events := [] }
  match execLoop A input_data A.config.max_iterations.toNat s0 none none with
  | (.returned out, s) =>
    { result := .ok out,
      agent := { A with state := s.agState, iteration := s.iteration, traces := s.traces },
      events := s.events, modelCalls := s.modelCalls }
  | (.raised e, s) =>
    { result := .error e,
      agent := { A with state := .error, iteration := s.iteration, traces := s.traces },
      events := s.events, modelCalls := s.modelCalls }
  | (.ended act fa, s) =>
    match fa with
    | some f =>
      { result := .ok f,
        agent := { A with state := .completed, iteration := s.iteration, traces := s.traces },
        events := s.events, modelCalls := s.modelCalls }
    | none =>
      match act with
      | some a =>
        { result := .ok a,
          agent := { A with state := .completed, iteration := s.iteration, traces := s.traces },
          events := s.events, modelCalls := s.modelCalls }
      | none =>
        { result := .error (.unboundLocal "action"),
          agent := { A with state := .error, iteration := s.iteration, traces := s.traces },
          events := s.events, modelCalls := s.modelCalls }

/-- Normalization of a plain-string query (agent.py:63-68). -/
def normalizeInput : String ⊕ BaseInput → BaseInput
  | .inl s => { type := .text, content := .str s, metadata := [] }
  | .inr b => b

/-- `Agent.add_tool` (agent.py:154-158), with the registry mutation made
explicit: raising leaves the agent untouched. -/
def Agent.add_tool (A : Agent) (tool : Tool) : Except PyErr Unit × Agent :=
  if (A.tools.lookup tool.name).isSome then (.error (.duplicateTool tool.name), A)
  else (.ok (), { A with tools := A.tools ++ [(tool.name, tool)] })

/-- `Agent.remove_tool` (agent.py:160-163): delete the entry if present,
silently do nothing otherwise. -/
def Agent.remove_tool (A : Agent) (tool_name : String) : Agent :=
  if (A.tools.lookup tool_name).isSome then
    { A with tools := A.tools.filter (fun p => p.1 != tool_name) }
  else A

/-- The loop state each `PassOut` constructor carries. -/
def PassOut.st : PassOut → LoopState
  | .cont s _ => s
  | .brk s _ _ => s
  | .err s _ => s

/-- State right after the model call of a pass: `_iteration` incremented,
state `Thinking`, one more model call. -/
def genState (s : LoopState) : LoopState :=
  { s with iteration := s.iteration + 1, agState := .thinking,
           modelCalls := s.modelCalls + 1 }

/-- The `"llm_generation"` trace a pass records (agent.py:85-90). -/
def genTrace (A : Agent) (s : LoopState) (inp : BaseInput) (o : BaseOutput) : BaseTrace :=
  mkTrace A (genState s) "llm_generation" inp o

/-- Loop state after a pass's model call and its trace (tracing enabled,
memory mirror succeeding). -/
def afterGen (A : Agent) (s : LoopState) (inp : BaseInput) (o : BaseOutput) : LoopState :=
  { genState s with traces := s.traces ++ [genTrace A s inp o] }

/-- Loop state at the end of a pass that dispatched tool `nm` with input
sub-field `q` and got result `tres` (tracing enabled, mirror succeeding):
state `Executing`, the `toolExec` interaction logged, the
`"tool_execution:<nm>"` trace appended, `context["last_tool_result"]`
updated. -/
def afterTool (A : Agent) (s : LoopState) (inp : BaseInput) (o : BaseOutput)
    (nm : String) (q : Value) (tres : BaseOutput) : LoopState :=
  let s1 := { afterGen A s inp o with agState := .executing }
  let tIn : BaseInput := { type := .text, content := q, metadata := [] }
  let s2 := { s1 with events := s1.events ++ [Event.toolExec nm tIn] }
  let s3 := { s2 with traces := s2.traces ++ [mkTrace A s2 ("tool_execution:" ++ nm) inp tres] }
  { s3 with ctx := ctxSet s3.ctx "last_tool_result" tres.content }

/-- The memory collaborator, when present, never raises on `store`. -/
def MemNeverFails (A : Agent) : Prop :=
  ∀ m, A.memory = some m → ∀ k tr, m.store k tr = .ok ()

/-- A model response that the loop treats as neither a final answer nor a
tool request: not of kind `Json`, or a `Json` payload carrying neither a
`final_answer` nor a `tool` key. -/
def NoDecision (o : BaseOutput) : Prop :=
  o.type ≠ .json ∨
    (o.content.getKey "final_answer" = none ∧ o.content.getKey "tool" = none)

/-- Every tool interaction the loop can log: it is an `execute` call (never
`validate_input`) whose input envelope has kind `Text` and empty metadata. -/
def eventOk : Event → Prop
  | .toolExec _ i => i.type = .text ∧ i.metadata = []
  | .toolValidate _ _ => False

/-- Number of tool invocations in an interaction log. -/
def toolCallCount (evs : List Event) : Nat :=
  evs.countP fun e => match e with | .toolExec _ _ => true | _ => false

/-- The trace/count relation between two loop states: `dm` model calls and
`dt` tool calls happened in between, and one trace was recorded for each. -/
def CountsFrom (s s2 : LoopState) : Prop :=
  ∃ dm dt, s2.traces.length = s.traces.length + dm + dt ∧
    s2.modelCalls = s.modelCalls + dm ∧
    toolCallCount s2.events = toolCallCount s.events + dt

/-- Concrete fixtures for the witnesses and counterexamples. -/
def inpHi : BaseInput := { type := .text, content := .str "hi", metadata := [] }

def outPlain : BaseOutput := { type := .text, content := .str "pondering", metadata := [] }

def outFinalOk : BaseOutput :=
  { type := .json, content := .obj [("final_answer", .obj [("response", .str "ok")])],
    metadata := [] }

def outToolCall (nm : String) (q : Value) : BaseOutput :=
  { type := .json, content := .obj [("tool", .str nm), ("input", q)], metadata := [] }

def echoTool : Tool :=
  { name := "echo", description := "returns its input",
    execute := fun i => .ok { type := .text, content := i.content, metadata := [] },
    validate_input := fun _ => .ok true }

def llmAlways (o : BaseOutput) : LLM := { generate := fun _ => .ok o }

def llmScript (l : List BaseOutput) (d : BaseOutput) : LLM :=
  { generate := fun i => .ok (l.getD i d) }

def failingMemory : Memory := { store := fun _ _ => .error (.external "redis down") }

def agPlain : Agent :=
  { llm := llmAlways outPlain, config := { max_iterations := 3 }, session_id := "sid-0" }

def agFinal : Agent :=
  { llm := llmAlways outFinalOk, config := { max_iterations := 1 }, session_id := "sid-1" }

def agMissingTool : Agent :=
  { llm := llmAlways (outToolCall "ghost" (.str "q")), config := { max_iterations := 5 },
    session_id := "sid-2" }

def agMemFail : Agent :=
  { llm := llmAlways outFinalOk, config := { max_iterations := 1 },
    memory := some failingMemory, session_id := "sid-3" }

def agModelFail : Agent :=
  { llm := { generate := fun _ => .error (.external "model down") },
    config := { max_iterations := 4 }, session_id := "sid-4" }

def agZeroIter : Agent :=
  { llm := llmAlways outFinalOk, config := { max_iterations := 0 }, session_id := "sid-5" }

def agThreeIter : Agent :=
  { llm := llmScript [outToolCall "echo" (.str "q1"), outToolCall "echo" (.str "q2"),
                      outFinalOk] outPlain,
    config := { max_iterations := 3 }, tools := [("echo", echoTool)], session_id := "sid-6" }

def agToolTyped : Agent :=
  { llm := llmAlways (outToolCall "echo" (.num 42)),
    config := { max_iterations := 1 }, tools := [("echo", echoTool)], session_id := "sid-7" }

def agToolNoInput : Agent :=
  { llm := llmAlways { type := .json, content := .obj [("tool", .str "echo")], metadata := [] },
    config := { max_iterations := 1 }, tools := [("echo", echoTool)], session_id := "sid-8" }

def someTool (nm : String) : Tool :=
  { name := nm, description := "a tool",
    execute := fun _ => .ok outPlain, validate_input := fun _ => .ok true }

def agTwoTools : Agent :=
  { llm := llmAlways outPlain, config := {},
    tools := [("alpha", someTool "alpha"), ("beta", someTool "beta")], session_id := "sid-9" }

/-! ## General lemmas about the embedding -/

theorem lookup_filter_self (l : List (String × Tool)) (nm : String) :
    (l.filter (fun p => p.1 != nm)).lookup nm = none := by
  induction l with
  | nil => rfl
  | cons p t ih =>
    rw [List.filter_cons]
    by_cases h : p.1 = nm
    · simp only [h, bne_self_eq_false, Bool.false_eq_true, if_false]
      exact ih
    · have hb : (p.1 != nm) = true := bne_iff_ne.mpr h
      rw [hb, if_pos rfl]
      rcases p with ⟨k, tl⟩
      simp only at h
      rw [List.lookup_cons, beq_false_of_ne (Ne.symm h)]
      exact ih

theorem lookup_filter_ne (l : List (String × Tool)) (nm k : String) (h : k ≠ nm) :
    (l.filter (fun p => p.1 != nm)).lookup k = l.lookup k := by
  induction l with
  | nil => rfl
  | cons p t ih =>
    rcases p with ⟨a, tl⟩
    rw [List.filter_cons]
    by_cases ha : a = nm
    · simp only [ha, bne_self_eq_false, Bool.false_eq_true, if_false]
      rw [ih, List.lookup_cons, beq_false_of_ne (ha ▸ h)]
    · have hb : ((a, tl).1 != nm) = true := bne_iff_ne.mpr ha
      rw [hb, if_pos rfl, List.lookup_cons, List.lookup_cons]
      by_cases hk : k = a
      · rw [beq_iff_eq.mpr hk]
      · rw [beq_false_of_ne hk, ih]

/-! ## Registry operations (claims C7, C8) -/

/-- C7: for every registry and every tool whose name is already present,
`add_tool` fails with a `DuplicateTool` error and the registry (indeed the
whole agent) is left unchanged — atomic rejection. -/
theorem add_tool_duplicate_rejected (A : Agent) (t : Tool)
    (h : (A.tools.lookup t.name).isSome = true) :
    A.add_tool t = (.error (.duplicateTool t.name), A) ∧
    (A.add_tool t).2.tools = A.tools := by
  constructor
  · simp [Agent.add_tool, h]
  · simp [Agent.add_tool, h]

/-- Witness for C7 on a concrete two-entry registry. -/
theorem add_tool_duplicate_rejected_witness :
    (agTwoTools.tools.lookup (someTool "alpha").name).isSome = true ∧
    agTwoTools.add_tool (someTool "alpha") =
      (.error (.duplicateTool "alpha"), agTwoTools) := by
  exact ⟨rfl, (add_tool_duplicate_rejected agTwoTools (someTool "alpha") rfl).1⟩

/-- C8: `remove_tool` of an absent name is a silent no-op leaving the agent
unchanged; of a present name it deletes exactly that entry and leaves every
other key's binding unchanged. -/
theorem remove_tool_spec (A : Agent) (nm : String) :
    (A.tools.lookup nm = none → A.remove_tool nm = A) ∧
    (A.remove_tool nm).tools.lookup nm = none ∧
    (∀ k, k ≠ nm → (A.remove_tool nm).tools.lookup k = A.tools.lookup k) := by
  refine ⟨?_, ?_, ?_⟩
  · intro h
    simp [Agent.remove_tool, h]
  · by_cases h : (A.tools.lookup nm).isSome
    · simp [Agent.remove_tool, h, lookup_filter_self]
    · simp only [Agent.remove_tool, h, if_false, Bool.false_eq_true]
      exact Option.not_isSome_iff_eq_none.mp h
  · intro k hk
    by_cases h : (A.tools.lookup nm).isSome
    · simp [Agent.remove_tool, h, lookup_filter_ne _ _ _ hk]
    · simp [Agent.remove_tool, h]

/-- Witness for C8 on a concrete registry: removing the absent name
`"gamma"` is a no-op; removing `"alpha"` deletes it and keeps `"beta"`. -/
theorem remove_tool_spec_witness :
    agTwoTools.tools.lookup "gamma" = none ∧
    agTwoTools.remove_tool "gamma" = agTwoTools ∧
    (agTwoTools.remove_tool "alpha").tools.lookup "alpha" = none ∧
    (agTwoTools.remove_tool "alpha").tools.lookup "beta" = agTwoTools.tools.lookup "beta" := by
  refine ⟨rfl, (remove_tool_spec agTwoTools "gamma").1 rfl,
      (remove_tool_spec agTwoTools "alpha").2.1,
      (remove_tool_spec agTwoTools "alpha").2.2 "beta" (by decide)⟩

/-! ## Non-positive iteration bound (claim C6) -/

/-- C6 (code bug): when the iteration bound is non-positive the loop body
never runs, so no action is ever produced; the agent state does end
`Error`, but the failure the code raises is Python's `UnboundLocalError`
on reading the never-assigned `action` local (agent.py:139) — the intended
`RuntimeError("Max iterations reached without completion")` at line 145 is
unreachable. -/
theorem nonpositive_bound_unbound_action (A : Agent) (inp : BaseInput)
    (ctx : Option (List (String × Value))) (h : A.config.max_iterations ≤ 0) :
    (A.execute inp ctx).result = .error (.unboundLocal "action") ∧
    (A.execute inp ctx).agent.state = .error := by
  have hf : A.config.max_iterations.toNat = 0 := by omega
  constructor <;> simp [Agent.execute, hf, execLoop]

/-- Witness for C6 at the concrete agent with `max_iterations = 0`. -/
theorem nonpositive_bound_unbound_action_witness :
    agZeroIter.config.max_iterations ≤ 0 ∧
    (agZeroIter.execute inpHi none).result = .error (.unboundLocal "action") ∧
    (agZeroIter.execute inpHi none).agent.state = .error := by
  exact ⟨by decide, nonpositive_bound_unbound_action agZeroIter inpHi none (by decide)⟩

/-! ## Counterexamples: memory-mirror failure (C4) and session freshness (C5) -/

/-- Counterexample to C4 as stated: with a memory backend whose `store`
raises, a single successful model reply still makes `execute` fail — the
mirror failure propagates (there is no handler in `_store_trace`), the
state ends `Error`, and only the locally appended trace survives. -/
theorem mirror_failure_fails_execute_cex :
    (agMemFail.execute inpHi none).result = .error (.external "redis down") ∧
    (agMemFail.execute inpHi none).agent.state = .error ∧
    (agMemFail.execute inpHi none).agent.traces.length = 1 := by
  exact ⟨rfl, rfl, rfl⟩

/-- Counterexample to C5 as stated: a second `execute` call on the same
agent starts neither with an empty trace log nor with a fresh session id —
after two calls the traces of both calls have accumulated (length 2) and
the session id is still the one minted at construction. -/
theorem fresh_session_cex :
    (agFinal.execute inpHi none).agent.session_id = agFinal.session_id ∧
    (agFinal.execute inpHi none).agent.traces.length = 1 ∧
    ((agFinal.execute inpHi none).agent.execute inpHi none).agent.session_id
      = agFinal.session_id ∧
    ((agFinal.execute inpHi none).agent.execute inpHi none).agent.traces.length = 2 := by
  exact ⟨rfl, rfl, rfl, rfl⟩

theorem traceStep_ok (A : Agent) (hm : MemNeverFails A) (s : LoopState) (label : String)
    (inp : BaseInput) (outp : BaseOutput) :
    traceStep A s label inp outp =
      ({ s with traces := s.traces ++ [mkTrace A s label inp outp] }, none) := by
  unfold traceStep
  cases hmem : A.memory with
  | none => simp
  | some m => simp [hm m hmem]

theorem traceStep_fail (A : Agent) (m : Memory) (e : PyErr) (hmem : A.memory = some m)
    (hf : ∀ k tr, m.store k tr = .error e) (s : LoopState) (label : String)
    (inp : BaseInput) (outp : BaseOutput) :
    traceStep A s label inp outp =
      ({ s with traces := s.traces ++ [mkTrace A s label inp outp] }, some e) := by
  unfold traceStep
  simp [hmem, hf]

theorem traceStep_fst (A : Agent) (s : LoopState) (label : String)
    (inp : BaseInput) (outp : BaseOutput) :
    (traceStep A s label inp outp).1 =
      { s with traces := s.traces ++ [mkTrace A s label inp outp] } := by
  unfold traceStep
  dsimp only
  split
  · rfl
  · split <;> rfl

theorem traceStep_split (A : Agent) (s : LoopState) (label : String)
    (inp : BaseInput) (outp : BaseOutput) :
    traceStep A s label inp outp =
      ({ s with traces := s.traces ++ [mkTrace A s label inp outp] },
       (traceStep A s label inp outp).2) := by
  rw [← traceStep_fst A s label inp outp]

theorem parseAction_final (a : BaseOutput) (v : Value) (ht : a.type = .json)
    (hv : a.content.getKey "final_answer" = some v) :
    parseAction a = .finalAnswer v := by
  unfold parseAction
  simp [ht, hv]

theorem parseAction_toolReq (a : BaseOutput) (tv : Value) (ht : a.type = .json)
    (h1 : a.content.getKey "final_answer" = none)
    (h2 : a.content.getKey "tool" = some tv) :
    parseAction a = .toolReq tv ((a.content.getKey "input").getD (.str "")) := by
  unfold parseAction
  simp [ht, h1, h2]

theorem parseAction_nothing (a : BaseOutput) (h : NoDecision a) :
    parseAction a = .nothing := by
  unfold parseAction
  rcases h with h | ⟨h1, h2⟩
  · simp [h]
  · by_cases ht : a.type = .json
    · simp [ht, h1, h2]
    · simp [ht]

theorem passStep_genErr (A : Agent) (inp : BaseInput) (s0 : LoopState) (e : PyErr)
    (hg : A.llm.generate s0.modelCalls = .error e) :
    passStep A inp s0 = .err (genState s0) e := by
  unfold passStep
  simp [hg, genState]

theorem passStep_final (A : Agent) (inp : BaseInput) (s0 : LoopState) (a : BaseOutput)
    (v : Value) (hg : A.llm.generate s0.modelCalls = .ok a) (ht : a.type = .json)
    (hv : a.content.getKey "final_answer" = some v)
    (htr : A.config.trace_enabled = true) (hm : MemNeverFails A) :
    passStep A inp s0 = .brk (afterGen A s0 inp a) a
      { type := .json, content := v, metadata := a.metadata } := by
  unfold passStep
  simp only [hg, htr, if_true, traceStep_ok A hm, parseAction_final a v ht hv]
  simp [afterGen, genState, genTrace]

theorem passStep_memFail (A : Agent) (inp : BaseInput) (s0 : LoopState) (a : BaseOutput)
    (m : Memory) (e : PyErr) (hg : A.llm.generate s0.modelCalls = .ok a)
    (htr : A.config.trace_enabled = true) (hmem : A.memory = some m)
    (hf : ∀ k tr, m.store k tr = .error e) :
    passStep A inp s0 = .err (afterGen A s0 inp a) e := by
  unfold passStep
  simp only [hg, htr, if_true, traceStep_fail A m e hmem hf]
  simp [afterGen, genState, genTrace]

theorem passStep_noDecision (A : Agent) (inp : BaseInput) (s0 : LoopState) (a : BaseOutput)
    (hg : A.llm.generate s0.modelCalls = .ok a) (ha : NoDecision a)
    (hm : MemNeverFails A) :
    ∃ s2, passStep A inp s0 = .cont s2 a ∧ s2.modelCalls = s0.modelCalls + 1 ∧
      s2.events = s0.events ∧ ∃ l, s2.traces = s0.traces ++ l := by
  unfold passStep
  cases htr : A.config.trace_enabled with
  | true =>
    simp only [hg, htr, if_true, traceStep_ok A hm, parseAction_nothing a ha]
    exact ⟨_, rfl, rfl, rfl, ⟨_, rfl⟩⟩
  | false =>
    simp only [hg, htr, Bool.false_eq_true, if_false, parseAction_nothing a ha]
    exact ⟨_, rfl, rfl, rfl, ⟨[], by simp⟩⟩

theorem passStep_toolCall (A : Agent) (inp : BaseInput) (s0 : LoopState) (a : BaseOutput)
    (nm : String) (q : Value) (tl : Tool) (tres : BaseOutput)
    (hg : A.llm.generate s0.modelCalls = .ok a) (ht : a.type = .json)
    (h1 : a.content.getKey "final_answer" = none)
    (h2 : a.content.getKey "tool" = some (.str nm))
    (h3 : (a.content.getKey "input").getD (.str "") = q)
    (htr : A.config.trace_enabled = true) (hm : MemNeverFails A)
    (hlk : A.tools.lookup nm = some tl)
    (hex : tl.execute { type := .text, content := q, metadata := [] } = .ok tres) :
    passStep A inp s0 = .cont (afterTool A s0 inp a nm q tres) a := by
  unfold passStep dispatchTool
  simp only [hg, htr, if_true, traceStep_ok A hm,
    parseAction_toolReq a (.str nm) ht h1 h2, h3, hlk, hex]
  simp [afterTool, afterGen, genState, genTrace]

theorem passStep_toolMissing (A : Agent) (inp : BaseInput) (s0 : LoopState) (a : BaseOutput)
    (nm : String) (hg : A.llm.generate s0.modelCalls = .ok a) (ht : a.type = .json)
    (h1 : a.content.getKey "final_answer" = none)
    (h2 : a.content.getKey "tool" = some (.str nm))
    (htr : A.config.trace_enabled = true) (hm : MemNeverFails A)
    (hlk : A.tools.lookup nm = none) :
    passStep A inp s0 = .err { afterGen A s0 inp a with agState := .executing }
      (.toolNotFound (.str nm)) := by
  unfold passStep dispatchTool
  simp only [hg, htr, if_true, traceStep_ok A hm,
    parseAction_toolReq a (.str nm) ht h1 h2, hlk]
  simp [afterGen, genState, genTrace]

theorem dispatchTool_frame (A : Agent) (inp : BaseInput) (s : LoopState) (a : BaseOutput)
    (tv q : Value) :
    ∃ l1 l2, (dispatchTool A inp s a tv q).st.traces = s.traces ++ l1 ∧
      (dispatchTool A inp s a tv q).st.events = s.events ++ l2 ∧
      (∀ e ∈ l2, eventOk e) ∧
      (dispatchTool A inp s a tv q).st.modelCalls = s.modelCalls := by
  unfold dispatchTool
  cases tv with
  | str nm =>
    rcases hlk : A.tools.lookup nm with _ | tool <;> simp only [hlk]
    · exact ⟨[], [], by simp [PassOut.st], by simp [PassOut.st], by simp, by simp [PassOut.st]⟩
    · rcases hex : tool.execute { type := .text, content := q, metadata := [] } with e | tres <;>
        simp only [hex]
      · refine ⟨[], [Event.toolExec nm { type := .text, content := q, metadata := [] }],
          by simp [PassOut.st], by simp [PassOut.st], ?_, by simp [PassOut.st]⟩
        intro ev hev
        simp only [List.mem_singleton] at hev
        subst hev
        exact ⟨rfl, rfl⟩
      · cases htr : A.config.trace_enabled with
        | false =>
          simp only [htr, Bool.false_eq_true, if_false]
          refine ⟨[], [Event.toolExec nm { type := .text, content := q, metadata := [] }],
            by simp [PassOut.st], by simp [PassOut.st], ?_, by simp [PassOut.st]⟩
          intro ev hev
          simp only [List.mem_singleton] at hev
          subst hev
          exact ⟨rfl, rfl⟩
        | true =>
          simp only [htr, if_true]
          rw [traceStep_split]
          dsimp only
          split
          · refine ⟨[mkTrace A
                { s with agState := AgentState.executing,
                         events := s.events ++
                           [Event.toolExec nm { type := .text, content := q, metadata := [] }] }
                ("tool_execution:" ++ nm) inp tres],
              [Event.toolExec nm { type := .text, content := q, metadata := [] }],
              by simp [PassOut.st], by simp [PassOut.st], ?_, by simp [PassOut.st]⟩
            intro ev hev
            simp only [List.mem_singleton] at hev
            subst hev
            exact ⟨rfl, rfl⟩
          · refine ⟨[mkTrace A
                { s with agState := AgentState.executing,
                         events := s.events ++
                           [Event.toolExec nm { type := .text, content := q, metadata := [] }] }
                ("tool_execution:" ++ nm) inp tres],
              [Event.toolExec nm { type := .text, content := q, metadata := [] }],
              by simp [PassOut.st], by simp [PassOut.st], ?_, by simp [PassOut.st]⟩
            intro ev hev
            simp only [List.mem_singleton] at hev
            subst hev
            exact ⟨rfl, rfl⟩
  | null => exact ⟨[], [], by simp [PassOut.st], by simp [PassOut.st], by simp, by simp [PassOut.st]⟩
  | num n => exact ⟨[], [], by simp [PassOut.st], by simp [PassOut.st], by simp, by simp [PassOut.st]⟩
  | bool b => exact ⟨[], [], by simp [PassOut.st], by simp [PassOut.st], by simp, by simp [PassOut.st]⟩
  | arr l => exact ⟨[], [], by simp [PassOut.st], by simp [PassOut.st], by simp, by simp [PassOut.st]⟩
  | obj kvs => exact ⟨[], [], by simp [PassOut.st], by simp [PassOut.st], by simp, by simp [PassOut.st]⟩

theorem dispatchTool_frame_from (A : Agent) (inp : BaseInput) (S : LoopState)
    (a : BaseOutput) (tv q : Value) (s0 : LoopState)
    (hT : ∃ l0, S.traces = s0.traces ++ l0) (hE : S.events = s0.events)
    (hC : S.modelCalls = s0.modelCalls + 1) :
    ∃ l1 l2, (dispatchTool A inp S a tv q).st.traces = s0.traces ++ l1 ∧
      (dispatchTool A inp S a tv q).st.events = s0.events ++ l2 ∧
      (∀ e ∈ l2, eventOk e) ∧
      (dispatchTool A inp S a tv q).st.modelCalls = s0.modelCalls + 1 := by
  obtain ⟨l1, l2, h1, h2, h3, h4⟩ := dispatchTool_frame A inp S a tv q
  obtain ⟨l0, hT⟩ := hT
  exact ⟨l0 ++ l1, l2, by rw [h1, hT, List.append_assoc], by rw [h2, hE], h3,
    by rw [h4, hC]⟩

theorem passStep_frame (A : Agent) (inp : BaseInput) (s0 : LoopState) :
    ∃ l1 l2, (passStep A inp s0).st.traces = s0.traces ++ l1 ∧
      (passStep A inp s0).st.events = s0.events ++ l2 ∧
      (∀ e ∈ l2, eventOk e) ∧
      (passStep A inp s0).st.modelCalls = s0.modelCalls + 1 := by
  unfold passStep
  rcases hg : A.llm.generate s0.modelCalls with e | a <;> simp only [hg]
  · exact ⟨[], [], by simp [PassOut.st], by simp [PassOut.st], by simp, by simp [PassOut.st]⟩
  · cases htr : A.config.trace_enabled with
    | false =>
      simp only [htr, Bool.false_eq_true, if_false]
      cases hp : parseAction a with
      | finalAnswer v =>
        exact ⟨[], [], by simp [PassOut.st], by simp [PassOut.st], by simp, by simp [PassOut.st]⟩
      | nothing =>
        exact ⟨[], [], by simp [PassOut.st], by simp [PassOut.st], by simp, by simp [PassOut.st]⟩
      | toolReq tv q =>
        exact dispatchTool_frame_from A inp _ a tv q s0 ⟨[], by simp⟩ rfl rfl
    | true =>
      simp only [htr, if_true]
      rw [traceStep_split]
      dsimp only
      split
      · exact ⟨[genTrace A s0 inp a], [], by simp [PassOut.st, genTrace, genState],
          by simp [PassOut.st], by simp, by simp [PassOut.st]⟩
      · cases hp : parseAction a with
        | finalAnswer v =>
          exact ⟨[genTrace A s0 inp a], [], by simp [PassOut.st, genTrace, genState],
            by simp [PassOut.st], by simp, by simp [PassOut.st]⟩
        | nothing =>
          exact ⟨[genTrace A s0 inp a], [], by simp [PassOut.st, genTrace, genState],
            by simp [PassOut.st], by simp, by simp [PassOut.st]⟩
        | toolReq tv q =>
          exact dispatchTool_frame_from A inp _ a tv q s0
            ⟨[genTrace A s0 inp a], by simp [genTrace, genState]⟩ rfl rfl

theorem execLoop_frame (A : Agent) (inp : BaseInput) :
    ∀ (fuel : Nat) (s : LoopState) (act fa : Option BaseOutput),
      ∃ l1 l2, ((execLoop A inp fuel s act fa).2).traces = s.traces ++ l1 ∧
        ((execLoop A inp fuel s act fa).2).events = s.events ++ l2 ∧
        (∀ e ∈ l2, eventOk e) := by
  intro fuel
  induction fuel with
  | zero =>
    intro s act fa
    exact ⟨[], [], by simp [execLoop], by simp [execLoop], by simp⟩
  | succ k ih =>
    intro s act fa
    obtain ⟨l1, l2, h1, h2, h3, _⟩ := passStep_frame A inp s
    cases hp : passStep A inp s with
    | err s2 e =>
      rw [hp] at h1 h2
      simp only [PassOut.st] at h1 h2
      exact ⟨l1, l2, by simp [execLoop, hp, h1], by simp [execLoop, hp, h2], h3⟩
    | brk s2 a fa2 =>
      rw [hp] at h1 h2
      simp only [PassOut.st] at h1 h2
      exact ⟨l1, l2, by simp [execLoop, hp, h1], by simp [execLoop, hp, h2], h3⟩
    | cont s2 a =>
      rw [hp] at h1 h2
      simp only [PassOut.st] at h1 h2
      cases fa with
      | some f =>
        exact ⟨l1, l2, by simp [execLoop, hp, h1], by simp [execLoop, hp, h2], h3⟩
      | none =>
        obtain ⟨m1, m2, g1, g2, g3⟩ := ih s2 (some a) none
        refine ⟨l1 ++ m1, l2 ++ m2, ?_, ?_, ?_⟩
        · simp [execLoop, hp, g1, h1, List.append_assoc]
        · simp [execLoop, hp, g2, h2, List.append_assoc]
        · intro e he
          rcases List.mem_append.mp he with h | h
          · exact h3 e h
          · exact g3 e h

theorem execute_frame (A : Agent) (inp : BaseInput) (ctx : Option (List (String × Value))) :
    ∃ l1 l2, (A.execute inp ctx).agent.traces = A.traces ++ l1 ∧
      (A.execute inp ctx).events = l2 ∧ (∀ e ∈ l2, eventOk e) ∧
      (A.execute inp ctx).agent.session_id = A.session_id := by
  obtain ⟨l1, l2, h1, h2, h3⟩ := execLoop_frame A inp A.config.max_iterations.toNat
    { iteration := 0, agState := .thinking, ctx := ctx.getD [], traces := A.traces,
      modelCalls := 0, events := [] } none none
  rcases hE : execLoop A inp A.config.max_iterations.toNat
      { iteration := 0, agState := .thinking, ctx := ctx.getD [], traces := A.traces,
        modelCalls := 0, events := [] } none none with ⟨lo, s⟩
  rw [hE] at h1 h2
  simp only [List.nil_append] at h1 h2
  cases lo with
  | returned out =>
    exact ⟨l1, l2, by simp [Agent.execute, hE, h1], by simp [Agent.execute, hE, h2], h3,
      by simp [Agent.execute, hE]⟩
  | raised e =>
    exact ⟨l1, l2, by simp [Agent.execute, hE, h1], by simp [Agent.execute, hE, h2], h3,
      by simp [Agent.execute, hE]⟩
  | ended act fa =>
    cases fa with
    | some f =>
      exact ⟨l1, l2, by simp [Agent.execute, hE, h1], by simp [Agent.execute, hE, h2], h3,
        by simp [Agent.execute, hE]⟩
    | none =>
      cases act with
      | some a =>
        exact ⟨l1, l2, by simp [Agent.execute, hE, h1], by simp [Agent.execute, hE, h2], h3,
          by simp [Agent.execute, hE]⟩
      | none =>
        exact ⟨l1, l2, by simp [Agent.execute, hE, h1], by simp [Agent.execute, hE, h2], h3,
          by simp [Agent.execute, hE]⟩

theorem dispatchTool_count (A : Agent) (inp : BaseInput) (s : LoopState) (a : BaseOutput)
    (tv q : Value) (htr : A.config.trace_enabled = true)
    (htool : ∀ nm tl, A.tools.lookup nm = some tl → ∀ i, ∃ o, tl.execute i = .ok o)
    (hm : MemNeverFails A) :
    ∃ dt, (dispatchTool A inp s a tv q).st.traces.length = s.traces.length + dt ∧
      (dispatchTool A inp s a tv q).st.modelCalls = s.modelCalls ∧
      toolCallCount (dispatchTool A inp s a tv q).st.events = toolCallCount s.events + dt := by
  unfold dispatchTool
  cases tv with
  | str nm =>
    rcases hlk : A.tools.lookup nm with _ | tool <;> simp only [hlk]
    · exact ⟨0, by simp [PassOut.st], by simp [PassOut.st], by simp [PassOut.st]⟩
    · obtain ⟨tres, hex⟩ := htool nm tool hlk { type := .text, content := q, metadata := [] }
      simp only [hex, htr, if_true, traceStep_ok A hm]
      exact ⟨1, by simp [PassOut.st], by simp [PassOut.st],
        by simp [PassOut.st, toolCallCount, List.countP_append, List.countP_cons]⟩
  | null => exact ⟨0, by simp [PassOut.st], by simp [PassOut.st], by simp [PassOut.st]⟩
  | num n => exact ⟨0, by simp [PassOut.st], by simp [PassOut.st], by simp [PassOut.st]⟩
  | bool b => exact ⟨0, by simp [PassOut.st], by simp [PassOut.st], by simp [PassOut.st]⟩
  | arr l => exact ⟨0, by simp [PassOut.st], by simp [PassOut.st], by simp [PassOut.st]⟩
  | obj kvs => exact ⟨0, by simp [PassOut.st], by simp [PassOut.st], by simp [PassOut.st]⟩

theorem dispatchTool_count_from (A : Agent) (inp : BaseInput) (S : LoopState)
    (a : BaseOutput) (tv q : Value) (s0 : LoopState)
    (htr : A.config.trace_enabled = true)
    (htool : ∀ nm tl, A.tools.lookup nm = some tl → ∀ i, ∃ o, tl.execute i = .ok o)
    (hm : MemNeverFails A)
    (hT : S.traces.length = s0.traces.length + 1)
    (hE : toolCallCount S.events = toolCallCount s0.events)
    (hC : S.modelCalls = s0.modelCalls + 1) :
    ∃ dt, (dispatchTool A inp S a tv q).st.traces.length = s0.traces.length + 1 + dt ∧
      (dispatchTool A inp S a tv q).st.modelCalls = s0.modelCalls + 1 ∧
      toolCallCount (dispatchTool A inp S a tv q).st.events = toolCallCount s0.events + dt := by
  obtain ⟨dt, h1, h2, h3⟩ := dispatchTool_count A inp S a tv q htr htool hm
  exact ⟨dt, by rw [h1, hT], by rw [h2, hC], by rw [h3, hE]⟩

theorem passStep_count (A : Agent) (inp : BaseInput) (s0 : LoopState)
    (htr : A.config.trace_enabled = true)
    (hgen : ∀ i, ∃ o, A.llm.generate i = .ok o)
    (htool : ∀ nm tl, A.tools.lookup nm = some tl → ∀ i, ∃ o, tl.execute i = .ok o)
    (hm : MemNeverFails A) :
    ∃ dt, (passStep A inp s0).st.traces.length = s0.traces.length + 1 + dt ∧
      (passStep A inp s0).st.modelCalls = s0.modelCalls + 1 ∧
      toolCallCount (passStep A inp s0).st.events = toolCallCount s0.events + dt := by
  obtain ⟨a, hg⟩ := hgen s0.modelCalls
  unfold passStep
  simp only [hg, htr, if_true, traceStep_ok A hm]
  cases hp : parseAction a with
  | finalAnswer v => exact ⟨0, by simp [PassOut.st], by simp [PassOut.st], by simp [PassOut.st]⟩
  | nothing => exact ⟨0, by simp [PassOut.st], by simp [PassOut.st], by simp [PassOut.st]⟩
  | toolReq tv q =>
    exact dispatchTool_count_from A inp _ a tv q s0 htr htool hm (by simp) (by simp) (by simp)

theorem execLoop_count (A : Agent) (inp : BaseInput)
    (htr : A.config.trace_enabled = true)
    (hgen : ∀ i, ∃ o, A.llm.generate i = .ok o)
    (htool : ∀ nm tl, A.tools.lookup nm = some tl → ∀ i, ∃ o, tl.execute i = .ok o)
    (hm : MemNeverFails A) :
    ∀ (fuel : Nat) (s : LoopState) (act fa : Option BaseOutput),
      ∃ dm dt, ((execLoop A inp fuel s act fa).2).traces.length = s.traces.length + dm + dt ∧
        ((execLoop A inp fuel s act fa).2).modelCalls = s.modelCalls + dm ∧
        toolCallCount ((execLoop A inp fuel s act fa).2).events
          = toolCallCount s.events + dt := by
  intro fuel
  induction fuel with
  | zero =>
    intro s act fa
    exact ⟨0, 0, by simp [execLoop], by simp [execLoop], by simp [execLoop]⟩
  | succ k ih =>
    intro s act fa
    obtain ⟨dt, h1, h2, h3⟩ := passStep_count A inp s htr hgen htool hm
    cases hp : passStep A inp s with
    | err s2 e =>
      rw [hp] at h1 h2 h3
      simp only [PassOut.st] at h1 h2 h3
      exact ⟨1, dt, by simp [execLoop, hp, h1], by simp [execLoop, hp, h2],
        by simp [execLoop, hp, h3]⟩
    | brk s2 a fa2 =>
      rw [hp] at h1 h2 h3
      simp only [PassOut.st] at h1 h2 h3
      exact ⟨1, dt, by simp [execLoop, hp, h1], by simp [execLoop, hp, h2],
        by simp [execLoop, hp, h3]⟩
    | cont s2 a =>
      rw [hp] at h1 h2 h3
      simp only [PassOut.st] at h1 h2 h3
      cases fa with
      | some f =>
        exact ⟨1, dt, by simp [execLoop, hp, h1], by simp [execLoop, hp, h2],
          by simp [execLoop, hp, h3]⟩
      | none =>
        obtain ⟨dm2, dt2, g1, g2, g3⟩ := ih s2 (some a) none
        refine ⟨1 + dm2, dt + dt2, ?_, ?_, ?_⟩
        · simp only [execLoop, hp]
          rw [g1, h1]
          omega
        · simp only [execLoop, hp]
          rw [g2, h2]
          omega
        · simp only [execLoop, hp]
          rw [g3, h3]
          omega

theorem execLoop_noDecision (A : Agent) (inp : BaseInput) (f : Nat → BaseOutput)
    (h1 : ∀ i, A.llm.generate i = .ok (f i)) (h2 : ∀ i, NoDecision (f i))
    (hm : MemNeverFails A) :
    ∀ (fuel : Nat) (s : LoopState) (act : Option BaseOutput),
      ∃ s2, execLoop A inp (fuel + 1) s act none
          = (.ended (some (f (s.modelCalls + fuel))) none, s2)
        ∧ s2.modelCalls = s.modelCalls + fuel + 1 ∧ s2.events = s.events := by
  intro fuel
  induction fuel with
  | zero =>
    intro s act
    obtain ⟨s2, hp, hmc, hev, _⟩ :=
      passStep_noDecision A inp s (f s.modelCalls) (h1 _) (h2 _) hm
    refine ⟨s2, ?_, by omega, hev⟩
    simp [execLoop, hp]
  | succ k ih =>
    intro s act
    obtain ⟨s2, hp, hmc, hev, _⟩ :=
      passStep_noDecision A inp s (f s.modelCalls) (h1 _) (h2 _) hm
    obtain ⟨s3, hl, hmc3, hev3⟩ := ih s2 (some (f s.modelCalls))
    have hidx : s2.modelCalls + k = s.modelCalls + (k + 1) := by omega
    rw [hidx] at hl
    refine ⟨s3, ?_, by omega, by rw [hev3, hev]⟩
    simp only [execLoop, hp]
    exact hl

/-- C1: with `max_iterations = N ≥ 1` and a model none of whose responses
carries a `final_answer` or `tool` key, `execute` makes exactly the bounded
number of model calls (hence at most `N`), performs no tool interaction,
and returns the last model-produced action with state `Completed` instead
of raising. -/
theorem no_decision_returns_last_action (A : Agent) (inp : BaseInput)
    (ctx : Option (List (String × Value))) (f : Nat → BaseOutput)
    (hpos : 1 ≤ A.config.max_iterations)
    (h1 : ∀ i, A.llm.generate i = .ok (f i)) (h2 : ∀ i, NoDecision (f i))
    (hm : MemNeverFails A) :
    (A.execute inp ctx).modelCalls = A.config.max_iterations.toNat ∧
    ((A.execute inp ctx).modelCalls : Int) ≤ A.config.max_iterations ∧
    (A.execute inp ctx).result = .ok (f (A.config.max_iterations.toNat - 1)) ∧
    (A.execute inp ctx).agent.state = .completed ∧
    (A.execute inp ctx).events = [] := by
  obtain ⟨k, hk⟩ : ∃ k, A.config.max_iterations.toNat = k + 1 :=
    ⟨A.config.max_iterations.toNat - 1, by omega⟩
  obtain ⟨s2, hrun, hmc, hev⟩ := execLoop_noDecision A inp f h1 h2 hm k
    { iteration := 0, agState := .thinking, ctx := ctx.getD [], traces := A.traces,
      modelCalls := 0, events := [] } none
  simp only [Agent.execute, hk]
  rw [hrun]
  dsimp only
  have hmc2 : s2.modelCalls = k + 1 := by simpa using hmc
  refine ⟨by simpa [hk] using hmc2, by omega, by simp [hk], rfl, by simpa using hev⟩

theorem execute_proj (A : Agent) (inp : BaseInput) (ctx : Option (List (String × Value))) :
    (A.execute inp ctx).agent.traces =
      ((execLoop A inp A.config.max_iterations.toNat
        { iteration := 0, agState := .thinking, ctx := ctx.getD [], traces := A.traces,
          modelCalls := 0, events := [] } none none).2).traces ∧
    (A.execute inp ctx).events =
      ((execLoop A inp A.config.max_iterations.toNat
        { iteration := 0, agState := .thinking, ctx := ctx.getD [], traces := A.traces,
          modelCalls := 0, events := [] } none none).2).events ∧
    (A.execute inp ctx).modelCalls =
      ((execLoop A inp A.config.max_iterations.toNat
        { iteration := 0, agState := .thinking, ctx := ctx.getD [], traces := A.traces,
          modelCalls := 0, events := [] } none none).2).modelCalls := by
  rcases hE : execLoop A inp A.config.max_iterations.toNat
      { iteration := 0, agState := .thinking, ctx := ctx.getD [], traces := A.traces,
        modelCalls := 0, events := [] } none none with ⟨lo, s⟩
  cases lo with
  | returned out => exact ⟨by simp [Agent.execute, hE], by simp [Agent.execute, hE],
      by simp [Agent.execute, hE]⟩
  | raised e => exact ⟨by simp [Agent.execute, hE], by simp [Agent.execute, hE],
      by simp [Agent.execute, hE]⟩
  | ended act fa =>
    cases fa with
    | some f => exact ⟨by simp [Agent.execute, hE], by simp [Agent.execute, hE],
        by simp [Agent.execute, hE]⟩
    | none =>
      cases act with
      | some a => exact ⟨by simp [Agent.execute, hE], by simp [Agent.execute, hE],
          by simp [Agent.execute, hE]⟩
      | none => exact ⟨by simp [Agent.execute, hE], by simp [Agent.execute, hE],
          by simp [Agent.execute, hE]⟩

/-- C2: when the model's first response is a `Json` envelope whose payload
carries a `final_answer` key, `execute` makes exactly one model call and no
tool interaction, returns a `Json` envelope wrapping the `final_answer`
value with the action's metadata, ends `Completed`, and (tracing enabled)
records exactly one trace, labeled `"llm_generation"`. -/
theorem first_response_final_answer (A : Agent) (inp : BaseInput)
    (ctx : Option (List (String × Value))) (a : BaseOutput) (v : Value)
    (hg : A.llm.generate 0 = .ok a) (ht : a.type = .json)
    (hv : a.content.getKey "final_answer" = some v)
    (hpos : 1 ≤ A.config.max_iterations)
    (htr : A.config.trace_enabled = true) (hm : MemNeverFails A) :
    (A.execute inp ctx).result = .ok { type := .json, content := v, metadata := a.metadata } ∧
    (A.execute inp ctx).modelCalls = 1 ∧
    (A.execute inp ctx).events = [] ∧
    (A.execute inp ctx).agent.state = .completed ∧
    (A.execute inp ctx).agent.traces = A.traces ++
      [{ session_id := A.session_id, action := "llm_generation", input := inp, output := a,
         metadata := { iteration := 1, state := .thinking } }] := by
  obtain ⟨k, hk⟩ : ∃ k, A.config.max_iterations.toNat = k + 1 :=
    ⟨A.config.max_iterations.toNat - 1, by omega⟩
  have hp := passStep_final A inp
    { iteration := 0, agState := .thinking, ctx := ctx.getD [], traces := A.traces,
      modelCalls := 0, events := [] } a v hg ht hv htr hm
  simp only [Agent.execute, hk, execLoop, hp]
  simp [afterGen, genState, genTrace, mkTrace]

/-- C3: when the model requests a tool name absent from the registry, the
call fails at once with `ToolNotFound` (a single model call, no retry), the
state ends `Error`, no tool interaction happens, and no
`"tool_execution:*"` trace is recorded — the only new trace is the
`"llm_generation"` one. -/
theorem unregistered_tool_fatal (A : Agent) (inp : BaseInput)
    (ctx : Option (List (String × Value))) (a : BaseOutput) (nm : String)
    (hg : A.llm.generate 0 = .ok a) (ht : a.type = .json)
    (h1 : a.content.getKey "final_answer" = none)
    (h2 : a.content.getKey "tool" = some (.str nm))
    (hlk : A.tools.lookup nm = none)
    (hpos : 1 ≤ A.config.max_iterations)
    (htr : A.config.trace_enabled = true) (hm : MemNeverFails A) :
    (A.execute inp ctx).result = .error (.toolNotFound (.str nm)) ∧
    (A.execute inp ctx).agent.state = .error ∧
    (A.execute inp ctx).modelCalls = 1 ∧
    (A.execute inp ctx).events = [] ∧
    ((A.execute inp ctx).agent.traces.map fun t => t.action)
      = (A.traces.map fun t => t.action) ++ ["llm_generation"] := by
  obtain ⟨k, hk⟩ : ∃ k, A.config.max_iterations.toNat = k + 1 :=
    ⟨A.config.max_iterations.toNat - 1, by omega⟩
  have hp := passStep_toolMissing A inp
    { iteration := 0, agState := .thinking, ctx := ctx.getD [], traces := A.traces,
      modelCalls := 0, events := [] } a nm hg ht h1 h2 htr hm hlk
  simp only [Agent.execute, hk, execLoop, hp]
  simp [afterGen, genState, genTrace, mkTrace]

/-- C4 (amended): a failure of the external memory store while mirroring a
trace is not recovered — it propagates out of `execute` with state `Error`,
exactly as a failure raised by the model (second conjunct) propagates
unchanged. -/
theorem mirror_failure_propagates (A : Agent) (inp : BaseInput)
    (ctx : Option (List (String × Value))) (m : Memory) (e : PyErr) (a : BaseOutput)
    (hmem : A.memory = some m) (hf : ∀ k tr, m.store k tr = .error e)
    (hg : A.llm.generate 0 = .ok a)
    (hpos : 1 ≤ A.config.max_iterations) (htr : A.config.trace_enabled = true) :
    ((A.execute inp ctx).result = .error e ∧ (A.execute inp ctx).agent.state = .error) ∧
    (∀ (B : Agent) (inpB : BaseInput) (ctxB : Option (List (String × Value))) (eB : PyErr),
      B.llm.generate 0 = .error eB → 1 ≤ B.config.max_iterations →
      (B.execute inpB ctxB).result = .error eB ∧
      (B.execute inpB ctxB).agent.state = .error) := by
  constructor
  · obtain ⟨k, hk⟩ : ∃ k, A.config.max_iterations.toNat = k + 1 :=
      ⟨A.config.max_iterations.toNat - 1, by omega⟩
    have hp := passStep_memFail A inp
      { iteration := 0, agState := .thinking, ctx := ctx.getD [], traces := A.traces,
        modelCalls := 0, events := [] } a m e hg htr hmem hf
    simp only [Agent.execute, hk, execLoop, hp]
    exact ⟨trivial, trivial⟩
  · intro B inpB ctxB eB hgB hposB
    obtain ⟨k, hk⟩ : ∃ k, B.config.max_iterations.toNat = k + 1 :=
      ⟨B.config.max_iterations.toNat - 1, by omega⟩
    have hp := passStep_genErr B inpB
      { iteration := 0, agState := .thinking, ctx := ctxB.getD [], traces := B.traces,
        modelCalls := 0, events := [] } eB hgB
    simp only [Agent.execute, hk, execLoop, hp]
    exact ⟨trivial, trivial⟩

/-- C5 (amended): `execute` does not allocate a fresh session: the session
id minted at construction is returned unchanged, and the trace log is
never cleared — the updated agent's traces extend the previous ones. -/
theorem session_reused_traces_accumulate (A : Agent) (inp : BaseInput)
    (ctx : Option (List (String × Value))) :
    (A.execute inp ctx).agent.session_id = A.session_id ∧
    ∃ l, (A.execute inp ctx).agent.traces = A.traces ++ l := by
  obtain ⟨l1, l2, h1, h2, h3, h4⟩ := execute_frame A inp ctx
  exact ⟨h4, l1, h1⟩

theorem lookup_mem (l : List (String × Tool)) (k : String) (tl : Tool)
    (h : l.lookup k = some tl) : (k, tl) ∈ l := by
  induction l with
  | nil => cases h
  | cons p t ih =>
    rcases p with ⟨a, b⟩
    rw [List.lookup_cons] at h
    by_cases hk : k = a
    · rw [beq_iff_eq.mpr hk] at h
      cases h
      exact hk ▸ List.mem_cons_self _ _
    · rw [beq_false_of_ne hk] at h
      exact List.mem_cons_of_mem _ (ih h)

/-- C9: with tracing enabled and successful collaborators, the number of
recorded traces equals one per model call plus one per tool call; in
particular the concrete fully successful 3-iteration run with two tool
calls records exactly 5 traces, in order model, tool, model, tool, model. -/
theorem one_trace_per_model_and_tool_call (A : Agent) (inp : BaseInput)
    (ctx : Option (List (String × Value)))
    (htr : A.config.trace_enabled = true)
    (hgen : ∀ i, ∃ o, A.llm.generate i = .ok o)
    (htool : ∀ nm tl, A.tools.lookup nm = some tl → ∀ i, ∃ o, tl.execute i = .ok o)
    (hm : MemNeverFails A) :
    ((A.execute inp ctx).agent.traces.length
      = A.traces.length + (A.execute inp ctx).modelCalls
          + toolCallCount (A.execute inp ctx).events) ∧
    (agThreeIter.execute inpHi none).agent.traces.length = 5 ∧
    (agThreeIter.execute inpHi none).modelCalls = 3 ∧
    toolCallCount (agThreeIter.execute inpHi none).events = 2 ∧
    (agThreeIter.execute inpHi none).result
      = .ok { type := .json, content := .obj [("response", .str "ok")], metadata := [] } ∧
    (agThreeIter.execute inpHi none).agent.state = .completed ∧
    ((agThreeIter.execute inpHi none).agent.traces.map fun t => t.action)
      = ["llm_generation", "tool_execution:echo", "llm_generation", "tool_execution:echo",
         "llm_generation"] := by
  refine ⟨?_, rfl, rfl, rfl, rfl, rfl, rfl⟩
  obtain ⟨hT, hEv, hMC⟩ := execute_proj A inp ctx
  obtain ⟨dm, dt, g1, g2, g3⟩ := execLoop_count A inp htr hgen htool hm
    A.config.max_iterations.toNat
    { iteration := 0, agState := .thinking, ctx := ctx.getD [], traces := A.traces,
      modelCalls := 0, events := [] } none none
  rw [hT, hEv, hMC]
  simp only at g1 g2 g3
  have h0 : toolCallCount ([] : List Event) = 0 := rfl
  rw [h0] at g3
  omega

/-- C10: the loop dispatches tools by invoking their `execute` directly —
`validate_input` is never called — and the envelope passed always has kind
`Text` wrapping the model's `input` sub-field, whatever that sub-field's
type (here a number, and the default `""` when the sub-field is absent). -/
theorem tool_dispatch_no_validate :
    (∀ (A : Agent) (inp : BaseInput) (ctx : Option (List (String × Value))),
      ∀ e ∈ (A.execute inp ctx).events, eventOk e) ∧
    (∀ (A : Agent) (inp : BaseInput) (ctx : Option (List (String × Value)))
      (nm : String) (i : BaseInput),
      Event.toolValidate nm i ∉ (A.execute inp ctx).events) ∧
    (agToolTyped.execute inpHi none).events
      = [.toolExec "echo" { type := .text, content := .num 42, metadata := [] }] ∧
    (agToolNoInput.execute inpHi none).events
      = [.toolExec "echo" { type := .text, content := .str "", metadata := [] }] := by
  have hall : ∀ (A : Agent) (inp : BaseInput) (ctx : Option (List (String × Value))),
      ∀ e ∈ (A.execute inp ctx).events, eventOk e := by
    intro A inp ctx e he
    obtain ⟨l1, l2, h1, h2, h3, h4⟩ := execute_frame A inp ctx
    rw [h2] at he
    exact h3 e he
  refine ⟨hall, ?_, rfl, rfl⟩
  intro A inp ctx nm i hmem2
  exact hall A inp ctx _ hmem2

/-- Witness for C1: three no-decision replies, three model calls, the last
reply returned. -/
theorem no_decision_returns_last_action_witness :
    1 ≤ agPlain.config.max_iterations ∧
    (agPlain.execute inpHi none).modelCalls = 3 ∧
    (agPlain.execute inpHi none).result = .ok outPlain ∧
    (agPlain.execute inpHi none).agent.state = .completed := by
  have h := no_decision_returns_last_action agPlain inpHi none (fun _ => outPlain)
    (by decide) (fun i => rfl)
    (by intro i; show NoDecision outPlain; exact Or.inl (by decide))
    (by intro m hm k tr; simp [agPlain] at hm)
  exact ⟨by decide, h.1, h.2.2.1, h.2.2.2.1⟩

/-- Witness for C2 at the concrete single-reply agent. -/
theorem first_response_final_answer_witness :
    agFinal.llm.generate 0 = .ok outFinalOk ∧
    (agFinal.execute inpHi none).result
      = .ok { type := .json, content := .obj [("response", .str "ok")], metadata := [] } ∧
    (agFinal.execute inpHi none).modelCalls = 1 ∧
    (agFinal.execute inpHi none).agent.state = .completed ∧
    (agFinal.execute inpHi none).agent.traces.length = 1 := by
  have h := first_response_final_answer agFinal inpHi none outFinalOk
    (.obj [("response", .str "ok")]) rfl rfl rfl (by decide) rfl
    (by intro m hm k tr; simp [agFinal] at hm)
  refine ⟨rfl, h.1, h.2.1, h.2.2.2.1, ?_⟩
  rw [h.2.2.2.2]
  rfl

/-- Witness for C3 at the concrete agent requesting the unregistered tool
`"ghost"`. -/
theorem unregistered_tool_fatal_witness :
    agMissingTool.tools.lookup "ghost" = none ∧
    (agMissingTool.execute inpHi none).result = .error (.toolNotFound (.str "ghost")) ∧
    (agMissingTool.execute inpHi none).agent.state = .error ∧
    (agMissingTool.execute inpHi none).modelCalls = 1 ∧
    (agMissingTool.execute inpHi none).events = [] ∧
    ((agMissingTool.execute inpHi none).agent.traces.map fun t => t.action)
      = ["llm_generation"] := by
  have h := unregistered_tool_fatal agMissingTool inpHi none
    (outToolCall "ghost" (.str "q")) "ghost" rfl rfl rfl rfl rfl (by decide) rfl
    (by intro m hm k tr; simp [agMissingTool] at hm)
  exact ⟨rfl, h.1, h.2.1, h.2.2.1, h.2.2.2.1, h.2.2.2.2⟩

/-- Witness for the amended C4: the failing mirror aborts the call, and a
model failure propagates unchanged. -/
theorem mirror_failure_propagates_witness :
    agMemFail.memory = some failingMemory ∧
    (agMemFail.execute inpHi none).result = .error (.external "redis down") ∧
    (agMemFail.execute inpHi none).agent.state = .error ∧
    (agModelFail.execute inpHi none).result = .error (.external "model down") ∧
    (agModelFail.execute inpHi none).agent.state = .error := by
  have h := mirror_failure_propagates agMemFail inpHi none failingMemory
    (.external "redis down") outFinalOk rfl (fun k tr => rfl) rfl (by decide) rfl
  have h2 := h.2 agModelFail inpHi none (.external "model down") rfl (by decide)
  exact ⟨rfl, h.1.1, h.1.2, h2.1, h2.2⟩

/-- Witness for the amended C5 at a concrete agent. -/
theorem session_reused_traces_accumulate_witness :
    (agPlain.execute inpHi (some [])).agent.session_id = "sid-0" := by
  exact (session_reused_traces_accumulate agPlain inpHi (some [])).1

/-- Witness for C9 at the concrete 3-iteration agent. -/
theorem one_trace_per_model_and_tool_call_witness :
    agThreeIter.config.trace_enabled = true ∧
    (agThreeIter.execute inpHi none).agent.traces.length
      = agThreeIter.traces.length + (agThreeIter.execute inpHi none).modelCalls
        + toolCallCount (agThreeIter.execute inpHi none).events := by
  have h := one_trace_per_model_and_tool_call agThreeIter inpHi none rfl
    (fun i => ⟨_, rfl⟩)
    (by
      intro nm tl hlk i
      have hmem2 := lookup_mem _ _ _ hlk
      simp [agThreeIter] at hmem2
      rw [hmem2.2]
      exact ⟨_, rfl⟩)
    (by intro m hm k tr; simp [agThreeIter] at hm)
  exact ⟨rfl, h.1⟩

/-- Witness for C10: the logged dispatch of the concrete typed-input run is
an `execute` interaction of kind `Text`. -/
theorem tool_dispatch_no_validate_witness :
    eventOk (Event.toolExec "echo"
      { type := .text, content := .num 42, metadata := [] }) := by
  refine tool_dispatch_no_validate.1 agToolTyped inpHi none _ ?_
  rw [tool_dispatch_no_validate.2.2.1]
  exact List.mem_singleton_self _
